import Mathlib

/-
Verification of the riffparse RIFF/AVI container parser.

The development shallowly embeds the Rust sources:
  * src/fourcc.rs : the Fourcc 4-byte tag.
  * src/riff.rs   : the RIFF chunk/list lazy iteration engine
                    (ChunkHeader, ListHeader, Header, Chunk, List,
                    ListIter, the ChunkRead data accessors).
  * src/avi.rs    : the AVI layer (stream table construction,
                    find_best_stream, stream_chunks).

The shared seekable byte stream is modelled as an explicit value of type
Stream (a byte list plus a cursor) threaded through every operation;
machine integers (u16, u32, u64) are modelled as Nat, with explicit
bounds stated where a fact depends on them.  Fallible operations return
Except BinError.  The Rust List type is named RList here because List is
taken by Lean.
-/

namespace Riffparse

/-- Four raw bytes (each intended to be < 256), least-significant first;
embeds the Rust [u8; 4] array that Fourcc::new consumes. -/
structure Bytes4 where
  b0 : Nat
  b1 : Nat
  b2 : Nat
  b3 : Nat
deriving DecidableEq

/-- Embeds fourcc.rs: `pub struct Fourcc(u32)` — an opaque 32-bit value,
compared by raw value (derived PartialEq/Eq compare the u32). -/
structure Fourcc where
  val : Nat
deriving DecidableEq

/-- Embeds `Fourcc::new`: `Self(u32::from_le_bytes(bytes))`. -/
def Fourcc.new (b : Bytes4) : Fourcc :=
  ⟨b.b0 + 256 * b.b1 + 65536 * b.b2 + 16777216 * b.b3⟩

/-- Embeds `Fourcc::bytes`: `self.0.to_le_bytes()`. -/
def Fourcc.bytes (f : Fourcc) : Bytes4 :=
  ⟨f.val % 256, f.val / 256 % 256, f.val / 65536 % 256, f.val / 16777216 % 256⟩

/-- Kind of a transport error; only UnexpectedEof is distinguished, the
sources construct it via `io::Error::from(io::ErrorKind::UnexpectedEof)`. -/
inductive IoErrorKind where
  | unexpectedEof
  | other
deriving DecidableEq

/-- Embeds the binrw::Error variants the sources construct:
Io, Custom { pos, err }, AssertFail { pos, message }, and the
derived-reader failures (bad magic / no variant matched / truncation,
which the derived readers report through Io or their own variants —
collapsed here into noVariantMatch and ioError). -/
inductive BinError where
  | ioError (kind : IoErrorKind)
  | custom (pos : Nat) (msg : String)
  | assertFail (pos : Nat) (msg : String)
  | noVariantMatch (pos : Nat)
deriving DecidableEq

/-- The one shared seekable byte stream: its contents and the cursor.
In the Rust sources this is the Rc<RefCell<R>> reader reachable from
every node; here it is passed and returned explicitly. -/
structure Stream where
  data : List Nat
  pos : Nat
deriving DecidableEq

/-- Embeds `reader.seek(SeekFrom::Start(p))` (Cursor semantics: seeking
past the end is allowed and only moves the cursor). -/
def seekTo (p : Nat) (s : Stream) : Stream :=
  ⟨s.data, p⟩

/-- Byte at index i of the stream contents (0 past the end; reads past
the end are guarded by the length checks of the read operations). -/
def byteAt (s : Stream) (i : Nat) : Nat :=
  s.data.getD i 0

/-- Embeds `read_exact` of n bytes at the cursor: fails with an
UnexpectedEof transport error when fewer than n bytes remain. -/
def readBytes (n : Nat) (s : Stream) : Except BinError (List Nat × Stream) :=
  if s.pos + n ≤ s.data.length then
    .ok ((s.data.drop s.pos).take n, ⟨s.data, s.pos + n⟩)
  else
    .error (.ioError .unexpectedEof)

/-- Embeds the binrw little-endian u32 read (also used for reading a
Fourcc, whose BinRead instance is the derived u32 read). -/
def readU32le (s : Stream) : Except BinError (Nat × Stream) :=
  if s.pos + 4 ≤ s.data.length then
    .ok (byteAt s s.pos + 256 * byteAt s (s.pos + 1) + 65536 * byteAt s (s.pos + 2)
          + 16777216 * byteAt s (s.pos + 3),
         ⟨s.data, s.pos + 4⟩)
  else
    .error (.ioError .unexpectedEof)

/-- Embeds riff.rs `struct ChunkHeader { chunk_id: Fourcc, size: u32 }`. -/
structure ChunkHeader where
  chunk_id : Fourcc
  size : Nat
deriving DecidableEq

/-- Embeds riff.rs `struct ListHeader { size: u32, list_id: Fourcc }`. -/
structure ListHeader where
  size : Nat
  list_id : Fourcc
deriving DecidableEq

/-- Embeds riff.rs `enum Header { Riff(ListHeader), List(ListHeader),
Chunk(ChunkHeader) }` (binrw-derived, magic "RIFF" / "LIST" / none). -/
inductive Header where
  | riff (h : ListHeader)
  | list (h : ListHeader)
  | chunk (h : ChunkHeader)
deriving DecidableEq

/-- fourcc.rs `tag::RIFF`. -/
def tagRIFF : Fourcc := Fourcc.new ⟨82, 73, 70, 70⟩

/-- fourcc.rs `tag::LIST`. -/
def tagLIST : Fourcc := Fourcc.new ⟨76, 73, 83, 84⟩

/-- Embeds the binrw-derived `Header::read`: the variants are tried in
declaration order from the same start position — a leading "RIFF" magic
yields Riff, "LIST" yields List, anything else is read as a plain
ChunkHeader (id then size).  Riff/List consume 12 bytes (magic, u32
size, Fourcc list id), Chunk consumes 8 (Fourcc id, u32 size).
Comparing the four magic bytes is done on the little-endian u32 value,
which is equivalent because u32::from_le_bytes is injective. -/
def Header.read (s : Stream) : Except BinError (Header × Stream) :=
  match readU32le s with
  | .error e => .error e
  | .ok (magic, s1) =>
    if magic = tagRIFF.val then
      match readU32le s1 with
      | .error e => .error e
      | .ok (size, s2) =>
        match readU32le s2 with
        | .error e => .error e
        | .ok (lid, s3) => .ok (.riff ⟨size, ⟨lid⟩⟩, s3)
    else if magic = tagLIST.val then
      match readU32le s1 with
      | .error e => .error e
      | .ok (size, s2) =>
        match readU32le s2 with
        | .error e => .error e
        | .ok (lid, s3) => .ok (.list ⟨size, ⟨lid⟩⟩, s3)
    else
      match readU32le s1 with
      | .error e => .error e
      | .ok (size, s2) => .ok (.chunk ⟨⟨magic⟩, size⟩, s2)

/-- Embeds riff.rs `Metadata`: the reader handle is the ambient Stream
(passed explicitly), so only the recorded data-start offset remains. -/
structure Metadata where
  data_start : Nat
deriving DecidableEq

/-- Embeds riff.rs `Chunk { header, metadata }`. -/
structure Chunk where
  header : ChunkHeader
  metadata : Metadata
deriving DecidableEq

/-- Embeds riff.rs `List { header, metadata }`; renamed RList because
List is Lean's list type. -/
structure RList where
  header : ListHeader
  metadata : Metadata
deriving DecidableEq

/-- Embeds riff.rs `enum ChunkType { List(..), Chunk(..) }`. -/
inductive ChunkType where
  | list (l : RList)
  | chunk (c : Chunk)
deriving DecidableEq

/-- Embeds `Chunk::id`. -/
def Chunk.id (c : Chunk) : Fourcc :=
  c.header.chunk_id

/-- Embeds `List::id`. -/
def RList.id (l : RList) : Fourcc :=
  l.header.list_id

/-- Embeds `<Chunk as ChunkData>::data_size`: `self.header.size`. -/
def Chunk.data_size (c : Chunk) : Nat :=
  c.header.size

/-- Embeds `<List as ChunkData>::data_size`: `self.header.size`
(riff.rs lines 204-206 — the declared size field, unchanged). -/
def RList.data_size (l : RList) : Nat :=
  l.header.size

/-- The pad computation of `ChunkData::data_pad`: 0 when the size is
even, 1 when odd. -/
def padOf (n : Nat) : Nat :=
  if n % 2 = 0 then 0 else 1

/-- Embeds `ChunkData::data_pad` for Chunk. -/
def Chunk.data_pad (c : Chunk) : Nat :=
  padOf c.data_size

/-- Embeds `ChunkData::data_pad` for List. -/
def RList.data_pad (l : RList) : Nat :=
  padOf l.data_size

/-- `size_of::<Fourcc>()`. -/
def fourccSize : Nat := 4

/-- Embeds riff.rs `ListIter { list, next_position }`. -/
structure ListIter where
  list : RList
  next_position : Nat
deriving DecidableEq

/-- Embeds `ListIter::new`: starts at the list's data start. -/
def ListIter.new (l : RList) : ListIter :=
  ⟨l, l.metadata.data_start⟩

/-- Embeds `ListIter::read_next`: seek to the cached next position, read
one header; data_start is the stream position after the header; the
cached next position is recomputed from the header alone — for a list
child `data_start + (size + data_pad) - size_of::<Fourcc>()` (the
list-id Fourcc is part of the declared size and was already read), for
a chunk child `data_start + (size + data_pad)`; a nested Riff header is
a malformed-file error.  On error the iterator state is unchanged. -/
def ListIter.read_next (it : ListIter) (s : Stream) :
    Except BinError (ChunkType × ListIter × Stream) :=
  let s0 := seekTo it.next_position s
  match Header.read s0 with
  | .error e => .error e
  | .ok (h, s1) =>
    let data_start := s1.pos
    match h with
    | .list lh =>
      let l : RList := ⟨lh, ⟨data_start⟩⟩
      .ok (.list l, ⟨it.list, data_start + (lh.size + l.data_pad) - fourccSize⟩, s1)
    | .chunk ch =>
      let c : Chunk := ⟨ch, ⟨data_start⟩⟩
      .ok (.chunk c, ⟨it.list, data_start + (ch.size + c.data_pad)⟩, s1)
    | .riff _ => .error (.custom data_start "malformed RIFF file")

/-- Embeds `<ListIter as Iterator>::next`: None when the cached next
position has reached
`list.data_start + (list.size + list.data_pad) - size_of::<Fourcc>()`,
otherwise one read_next step. -/
def ListIter.next (it : ListIter) (s : Stream) :
    Option (Except BinError (ChunkType × ListIter × Stream)) :=
  if it.list.metadata.data_start + (it.list.header.size + it.list.data_pad) - fourccSize
      ≤ it.next_position then
    none
  else
    some (it.read_next s)

/-- Embeds `ChunkRead::read_data_struct`:
`S::read(&mut *self.metadata().reader.borrow_mut())` — the decoder is
applied to the shared stream exactly as it stands; the metadata (and in
particular its data_start) is not consulted and no seek is performed.
The decoder argument stands for the BinRead instance of S. -/
def read_data_struct {α : Type} (dec : Stream → Except BinError (α × Stream))
    (_m : Metadata) (s : Stream) : Except BinError (α × Stream) :=
  dec s

/-- Embeds `ChunkRead::read_data`: fails with AssertFail (message
"read buffer too small", position = current stream position) when the
caller's buffer length differs from data_size; otherwise reads exactly
data_size bytes at the cursor and then consumes the single pad byte
when data_size is odd.  The buffer is represented by its length, the
filled contents are returned. -/
def read_data (data_size : Nat) (buffer_len : Nat) (s : Stream) :
    Except BinError (List Nat × Stream) :=
  if buffer_len ≠ data_size then
    .error (.assertFail s.pos "read buffer too small")
  else
    match readBytes data_size s with
    | .error e => .error e
    | .ok (bytes, s1) =>
      if padOf data_size = 1 then
        match readBytes 1 s1 with
        | .error e => .error e
        | .ok (_, s2) => .ok (bytes, s2)
      else
        .ok (bytes, s1)

/-- Embeds `ChunkRead::read_data_vec`: allocates a buffer of exactly
data_size bytes and delegates to read_data. -/
def read_data_vec (data_size : Nat) (s : Stream) :
    Except BinError (List Nat × Stream) :=
  read_data data_size data_size s

/-- avi.rs `tag::AVI` ("AVI "). -/
def tagAVI : Fourcc := Fourcc.new ⟨65, 86, 73, 32⟩

/-- avi.rs `tag::HDRL`. -/
def tagHDRL : Fourcc := Fourcc.new ⟨104, 100, 114, 108⟩

/-- avi.rs `tag::AVIH`. -/
def tagAVIH : Fourcc := Fourcc.new ⟨97, 118, 105, 104⟩

/-- avi.rs `tag::STRL`. -/
def tagSTRL : Fourcc := Fourcc.new ⟨115, 116, 114, 108⟩

/-- avi.rs `tag::STRH`. -/
def tagSTRH : Fourcc := Fourcc.new ⟨115, 116, 114, 104⟩

/-- avi.rs `tag::STRF`. -/
def tagSTRF : Fourcc := Fourcc.new ⟨115, 116, 114, 102⟩

/-- avi.rs `tag::VIDS`. -/
def tagVIDS : Fourcc := Fourcc.new ⟨118, 105, 100, 115⟩

/-- avi.rs `tag::AUDS`. -/
def tagAUDS : Fourcc := Fourcc.new ⟨97, 117, 100, 115⟩

/-- avi.rs `tag::MOVI`. -/
def tagMOVI : Fourcc := Fourcc.new ⟨109, 111, 118, 105⟩

/-- Embeds avi.rs `tag::stream(stream_index, datatype)`: clamps the
index to two decimal digits and builds the Fourcc from the two ASCII
digit bytes followed by the two datatype bytes (d0 d1).  ASCII digit
zero is 48; DATA_VIDEO_COMPRESSED is (100, 99) i.e. "dc",
DATA_AUDIO is (119, 98) i.e. "wb". -/
def tag_stream (stream_index : Nat) (d0 d1 : Nat) : Fourcc :=
  let i := if stream_index > 99 then 99 else stream_index
  Fourcc.new ⟨48 + i / 10, 48 + i % 10, d0, d1⟩

/-- Embeds avi.rs `AviMainHeader` (all u32 fields; reserved: [u32; 4]). -/
structure AviMainHeader where
  micro_sec_per_frame : Nat
  max_bytes_per_sec : Nat
  padding_granularity : Nat
  flags : Nat
  total_frames : Nat
  initial_frames : Nat
  streams : Nat
  suggested_buffer_size : Nat
  width : Nat
  height : Nat
  reserved : List Nat
deriving DecidableEq

/-- Embeds avi.rs `Frame` (four i16 fields). -/
structure Frame where
  left : Int
  top : Int
  right : Int
  bottom : Int
deriving DecidableEq

/-- Embeds avi.rs `AviStreamHeader`. -/
structure AviStreamHeader where
  fcc_type : Fourcc
  fcc_handler : Fourcc
  flags : Nat
  priority : Nat
  language : Nat
  initial_frames : Nat
  scale : Nat
  rate : Nat
  start : Nat
  length : Nat
  suggested_buffer_size : Nat
  quality : Nat
  sample_size : Nat
  frame : Frame
deriving DecidableEq

/-- Embeds avi.rs `BitmapInfo` (i32 fields as Int, u16/u32 as Nat). -/
structure BitmapInfo where
  size : Nat
  width : Int
  height : Int
  planes : Nat
  bit_count : Nat
  compression : Nat
  size_image : Nat
  x_pels_per_meter : Int
  y_pels_per_meter : Int
  clr_used : Nat
  clr_important : Nat
deriving DecidableEq

/-- Embeds avi.rs `WaveFormatEx`. -/
structure WaveFormatEx where
  channels : Nat
  samples_per_sec : Nat
  av_bytes_per_sec : Nat
  block_align : Nat
  bits_per_sample : Nat
  size : Nat
deriving DecidableEq

/-- Embeds avi.rs `Guid`. -/
structure Guid where
  data1 : Nat
  data2 : Nat
  data3 : Nat
  data4 : List Nat
deriving DecidableEq

/-- Embeds avi.rs `WaveFormatExtensible`. -/
structure WaveFormatExtensible where
  format : WaveFormatEx
  samples : Nat
  channel_mask : Nat
  sub_format : Guid
deriving DecidableEq

/-- Embeds avi.rs `Mpeg1WaveFormat`. -/
structure Mpeg1WaveFormat where
  format : WaveFormatEx
  head_layer : Nat
  head_bitrate : Nat
  head_mode : Nat
  head_mode_ext : Nat
  head_emphasis : Nat
  head_flags : Nat
  pts_low : Nat
  pts_high : Nat
deriving DecidableEq

/-- Embeds avi.rs `Mp3WaveFormat`. -/
structure Mp3WaveFormat where
  format : WaveFormatEx
  id : Nat
  flags : Nat
  block_size : Nat
  frames_per_block : Nat
  codec_delay : Nat
deriving DecidableEq

/-- Embeds avi.rs `enum WaveFormat` (tagged union on a leading u16
discriminant: 0x0001 PCM, 0xFFFE extensible, 0x0050 MPEG-1, 0x0055 MP3). -/
inductive WaveFormat where
  | pcm (f : WaveFormatEx)
  | extensible (f : WaveFormatExtensible)
  | mpeg1 (f : Mpeg1WaveFormat)
  | mp3 (f : Mp3WaveFormat)
deriving DecidableEq

/-- Embeds avi.rs `AudioStream`. -/
structure AudioStream where
  stream_id : Fourcc
  stream_header : AviStreamHeader
  wave_format : WaveFormat
deriving DecidableEq

/-- Embeds avi.rs `VideoStream`. -/
structure VideoStream where
  stream_id : Fourcc
  stream_header : AviStreamHeader
  bitmap_info : BitmapInfo
deriving DecidableEq

/-- Embeds avi.rs `enum StreamInfo { Audio(..), Video(..) }`. -/
inductive StreamInfo where
  | audio (a : AudioStream)
  | video (v : VideoStream)
deriving DecidableEq

/-- Embeds `<&AudioStream as TryFrom<&StreamInfo>>::try_from` (as an
Option: Err(()) becomes none). -/
def toAudio : StreamInfo → Option AudioStream
  | .audio a => some a
  | _ => none

/-- Embeds `<&VideoStream as TryFrom<&StreamInfo>>::try_from`. -/
def toVideo : StreamInfo → Option VideoStream
  | .video v => some v
  | _ => none

/-- One combining step of Rust's `Iterator::max_by_key` (via
`cmp::max_by`, which returns the second argument when the keys compare
equal): the accumulated element is kept only when its key is strictly
greater, so among equal keys the later element wins. -/
def max_by_key_step {α : Type} (key : α → Nat) (acc : Option α) (x : α) : Option α :=
  match acc with
  | none => some x
  | some a => if key a > key x then some a else some x

/-- Embeds Rust's `Iterator::max_by_key` over a list: a left fold of
max_by_key_step (none for the empty sequence; if several elements are
equally maximum, the last one is returned — the documented behaviour
of the standard library). -/
def max_by_key {α : Type} (key : α → Nat) (l : List α) : Option α :=
  l.foldl (max_by_key_step key) none

/-- Embeds avi.rs `AviParser::find_best_stream::<S>`:
`self.stream_info.iter().filter_map(|s| <&S>::try_from(s).ok())
     .max_by_key(|s| s.stream_header().priority)`.
The generic kind S is represented by its try_from conversion and its
Stream::stream_header accessor. -/
def find_best_stream {S : Type} (tryFrom : StreamInfo → Option S)
    (stream_header : S → AviStreamHeader) (stream_info : List StreamInfo) :
    Option S :=
  max_by_key (fun s => (stream_header s).priority) (stream_info.filterMap tryFrom)

/-- Modelled from the spec: the payload of a chunk as seen by the typed
read of the RIFF-engine revision that avi.rs targets (its Riff/RiffType
API is not under src/).  A chunk payload decodes to at most one of the
fixed little-endian records; raw stands for any other byte content. -/
inductive ChunkPayload where
  | mainHeader (h : AviMainHeader)
  | streamHeader (h : AviStreamHeader)
  | bitmapInfo (b : BitmapInfo)
  | waveFormat (w : WaveFormat)
  | raw (bytes : List Nat)

/-- Modelled from the spec: a node yielded by the `children(list)` lazy
sequence of the RIFF-engine revision that avi.rs targets (RiffType):
a leaf chunk (id + payload) or a list (id + its own immediate-children
sequence, each child either a node or the error raised while reading
its header). -/
inductive AviNode where
  | chunk (id : Fourcc) (payload : ChunkPayload)
  | list (id : Fourcc) (children : List (Except BinError AviNode))

/-- Modelled from the spec: `read_struct::<AviMainHeader>` on a chunk —
decodes the fixed record, any other payload is a decode failure, which
propagates. -/
def readMainHeaderP : ChunkPayload → Except BinError AviMainHeader
  | .mainHeader h => .ok h
  | _ => .error (.noVariantMatch 0)

/-- Modelled from the spec: `read_struct::<AviStreamHeader>` on a chunk. -/
def readStreamHeaderP : ChunkPayload → Except BinError AviStreamHeader
  | .streamHeader h => .ok h
  | _ => .error (.noVariantMatch 0)

/-- Modelled from the spec: `read_struct::<BitmapInfo>` on a chunk. -/
def readBitmapInfoP : ChunkPayload → Except BinError BitmapInfo
  | .bitmapInfo b => .ok b
  | _ => .error (.noVariantMatch 0)

/-- Modelled from the spec: `read_struct::<WaveFormat>` on a chunk
(an unknown union discriminant is a decode failure that propagates). -/
def readWaveFormatP : ChunkPayload → Except BinError WaveFormat
  | .waveFormat w => .ok w
  | _ => .error (.noVariantMatch 0)

/-- Embeds avi.rs `AviParser::eof_error`:
`Error::Io(io::Error::from(io::ErrorKind::UnexpectedEof))`. -/
def eof_error : BinError :=
  .ioError .unexpectedEof

/-- Embeds avi.rs `AviParser::missing_error`: AssertFail at the given
position with the "missing {tag}" message (the tag is rendered by its
u32 value here). -/
def missing_error (position : Nat) (tag : Fourcc) : BinError :=
  .assertFail position ("missing " ++ toString tag.val)

/-- Modelled from the spec: one advance of a lazy children sequence as
used by AviParser::new — `iter.next().ok_or_else(eof_error)??`:
exhaustion is unexpected-end-of-data, an error read while parsing the
child's header propagates, otherwise the node and the rest of the
sequence.  Positions carried by errors are abstracted to 0. -/
def nextItem (iter : List (Except BinError AviNode)) :
    Except BinError (AviNode × List (Except BinError AviNode)) :=
  match iter with
  | [] => .error eof_error
  | .error e :: _ => .error e
  | .ok n :: rest => .ok (n, rest)

/-- Embeds one iteration of the `for stream_index in 0..streams` loop of
avi.rs `AviParser::new`: require the next hdrl child to be a LIST
"strl"; within it require chunk "strh" (decoded as AviStreamHeader)
then chunk "strf"; when the declared fcc_type is "vids" decode strf as
BitmapInfo and emit a video entry, when "auds" decode as WaveFormat and
emit an audio entry, otherwise emit nothing; returns the optional entry
and the remaining hdrl children. -/
def readOneStream (stream_index : Nat) (iter : List (Except BinError AviNode)) :
    Except BinError (Option StreamInfo × List (Except BinError AviNode)) :=
  match nextItem iter with
  | .error e => .error e
  | .ok (n, rest) =>
    match n with
    | .chunk _ _ => .error (missing_error 0 tagSTRL)
    | .list lid strlChildren =>
      if lid ≠ tagSTRL then .error (missing_error 0 tagSTRL)
      else
        match nextItem strlChildren with
        | .error e => .error e
        | .ok (m, strlRest) =>
          match m with
          | .list _ _ => .error (missing_error 0 tagSTRH)
          | .chunk cid p =>
            if cid ≠ tagSTRH then .error (missing_error 0 tagSTRH)
            else
              match readStreamHeaderP p with
              | .error e => .error e
              | .ok stream_header =>
                match nextItem strlRest with
                | .error e => .error e
                | .ok (m2, _) =>
                  match m2 with
                  | .list _ _ => .error (missing_error 0 tagSTRF)
                  | .chunk cid2 p2 =>
                    if cid2 ≠ tagSTRF then .error (missing_error 0 tagSTRF)
                    else
                      if stream_header.fcc_type = tagVIDS then
                        match readBitmapInfoP p2 with
                        | .error e => .error e
                        | .ok bi =>
                          .ok (some (.video ⟨tag_stream stream_index 100 99,
                                             stream_header, bi⟩), rest)
                      else if stream_header.fcc_type = tagAUDS then
                        match readWaveFormatP p2 with
                        | .error e => .error e
                        | .ok wf =>
                          .ok (some (.audio ⟨tag_stream stream_index 119 98,
                                             stream_header, wf⟩), rest)
                      else
                        .ok (none, rest)

/-- Embeds the whole stream-table loop of avi.rs `AviParser::new`:
count iterations of readOneStream, collecting the entries that were
pushed (in order); any failure aborts the construction. -/
def readStreams (stream_index : Nat) (count : Nat)
    (iter : List (Except BinError AviNode)) :
    Except BinError (List StreamInfo × List (Except BinError AviNode)) :=
  match count with
  | 0 => .ok ([], iter)
  | n + 1 =>
    match readOneStream stream_index iter with
    | .error e => .error e
    | .ok (entry, rest) =>
      match readStreams (stream_index + 1) n rest with
      | .error e => .error e
      | .ok (tail, finalIter) => .ok (entry.toList ++ tail, finalIter)

/-- Embeds the movi scan of avi.rs `AviParser::new`:
`avi_iter.find_map(..).ok_or_else(eof_error)??` — the first remaining
root child that is a LIST tagged "movi" (an error read on the way
propagates; chunks and other lists are skipped); exhaustion without a
match is unexpected-end-of-data. -/
def findMovi : List (Except BinError AviNode) → Except BinError AviNode
  | [] => .error eof_error
  | .error e :: _ => .error e
  | .ok n :: rest =>
    match n with
    | .list lid ch => if lid = tagMOVI then .ok (.list lid ch) else findMovi rest
    | .chunk _ _ => findMovi rest

/-- The fields of avi.rs `AviParser` that its constructor assembles
(the RiffParser handle is the ambient stream and is omitted). -/
structure AviParserModel where
  avi_header : AviMainHeader
  stream_info : List StreamInfo
  movi : AviNode

/-- Embeds avi.rs `AviParser::new` over the modelled children
sequences: validate the root form type "AVI "; the first root child
must be LIST "hdrl"; its first child must be chunk "avih", decoded as
AviMainHeader; then exactly `streams` strl groups are read; finally the
remaining root children are scanned for LIST "movi".  Error positions
are abstracted to 0. -/
def aviNew (rootId : Fourcc) (rootChildren : List (Except BinError AviNode)) :
    Except BinError AviParserModel :=
  if rootId ≠ tagAVI then .error (missing_error 0 tagAVI)
  else
    match nextItem rootChildren with
    | .error e => .error e
    | .ok (first, rest) =>
      match first with
      | .chunk _ _ => .error (missing_error 0 tagHDRL)
      | .list hid hch =>
        if hid ≠ tagHDRL then .error (missing_error 0 tagHDRL)
        else
          match nextItem hch with
          | .error e => .error e
          | .ok (a, hrest) =>
            match a with
            | .list _ _ => .error (missing_error 0 tagAVIH)
            | .chunk aid ap =>
              if aid ≠ tagAVIH then .error (missing_error 0 tagAVIH)
              else
                match readMainHeaderP ap with
                | .error e => .error e
                | .ok main_header =>
                  match readStreams 0 main_header.streams hrest with
                  | .error e => .error e
                  | .ok (stream_info, _) =>
                    match findMovi rest with
                    | .error e => .error e
                    | .ok movi => .ok ⟨main_header, stream_info, movi⟩

/-- Embeds avi.rs `AviParser::stream_chunks`: filter the movi children
sequence, keeping a result exactly when it is Ok of a Chunk whose id
equals stream_id (the let-chain predicate returns false for every other
result, errors included). -/
def stream_chunks (stream_id : Fourcc)
    (children : List (Except BinError AviNode)) :
    List (Except BinError AviNode) :=
  children.filter fun result =>
    match result with
    | .ok (.chunk cid _) => cid == stream_id
    | _ => false

/-- A well-formed strl group as AviParser::new expects it: a stream
header chunk followed by a format chunk. -/
structure StrlGroup where
  header : AviStreamHeader
  fmt : ChunkPayload

/-- The LIST "strl" node of a group. -/
def StrlGroup.node (g : StrlGroup) : AviNode :=
  .list tagSTRL [.ok (.chunk tagSTRH (.streamHeader g.header)),
                 .ok (.chunk tagSTRF g.fmt)]

/-- Group payload agrees with the declared type: a vids stream carries a
BitmapInfo strf payload, an auds stream a WaveFormat one (any payload
is acceptable for other declared types, whose strf is never decoded). -/
def StrlGroup.wfb (g : StrlGroup) : Bool :=
  if g.header.fcc_type = tagVIDS then
    match g.fmt with
    | .bitmapInfo _ => true
    | _ => false
  else if g.header.fcc_type = tagAUDS then
    match g.fmt with
    | .waveFormat _ => true
    | _ => false
  else
    true

/-- The stream-table entry a group contributes at a given ordinal:
a video entry for vids, an audio entry for auds, none otherwise. -/
def StrlGroup.entry (idx : Nat) (g : StrlGroup) : Option StreamInfo :=
  if g.header.fcc_type = tagVIDS then
    match g.fmt with
    | .bitmapInfo b => some (.video ⟨tag_stream idx 100 99, g.header, b⟩)
    | _ => none
  else if g.header.fcc_type = tagAUDS then
    match g.fmt with
    | .waveFormat w => some (.audio ⟨tag_stream idx 119 98, g.header, w⟩)
    | _ => none
  else
    none

/-- The hdrl children sequence formed by a list of strl groups. -/
def okNodes (gs : List StrlGroup) : List (Except BinError AviNode) :=
  gs.map fun g => .ok g.node

/-- The stream table contributed by a list of groups starting at a given
ordinal. -/
def groupEntries : Nat → List StrlGroup → List StreamInfo
  | _, [] => []
  | idx, g :: gs => (g.entry idx).toList ++ groupEntries (idx + 1) gs

theorem padOf_le_one (n : Nat) : padOf n ≤ 1 := by
  unfold padOf
  split <;> omega

theorem readU32le_ok (s : Stream) (v : Nat) (s' : Stream)
    (h : readU32le s = .ok (v, s')) : s' = ⟨s.data, s.pos + 4⟩ := by
  unfold readU32le at h
  split at h
  · simp only [Except.ok.injEq, Prod.mk.injEq] at h
    exact h.2.symm
  · exact Except.noConfusion h

theorem Header.read_ok (s : Stream) (h : Header) (s' : Stream)
    (hr : Header.read s = .ok (h, s')) :
    s'.data = s.data ∧
    (∀ ch : ChunkHeader, h = .chunk ch → s'.pos = s.pos + 8) ∧
    (∀ lh : ListHeader, h = .list lh → s'.pos = s.pos + 12) ∧
    (∀ lh : ListHeader, h = .riff lh → s'.pos = s.pos + 12) := by
  unfold Header.read at hr
  split at hr
  next e heq => exact Except.noConfusion hr
  next magic s1 heq =>
    have h1 := readU32le_ok _ _ _ heq
    split at hr
    · -- RIFF magic
      split at hr
      next e heq2 => exact Except.noConfusion hr
      next size s2 heq2 =>
        have h2 := readU32le_ok _ _ _ heq2
        split at hr
        next e heq3 => exact Except.noConfusion hr
        next lid s3 heq3 =>
          have h3 := readU32le_ok _ _ _ heq3
          simp only [Except.ok.injEq, Prod.mk.injEq] at hr
          obtain ⟨rfl, rfl⟩ := hr
          subst h1 h2 h3
          refine ⟨rfl, ?_, ?_, ?_⟩ <;> intro x hx <;> simp at hx ⊢
    · split at hr
      · -- LIST magic
        split at hr
        next e heq2 => exact Except.noConfusion hr
        next size s2 heq2 =>
          have h2 := readU32le_ok _ _ _ heq2
          split at hr
          next e heq3 => exact Except.noConfusion hr
          next lid s3 heq3 =>
            have h3 := readU32le_ok _ _ _ heq3
            simp only [Except.ok.injEq, Prod.mk.injEq] at hr
            obtain ⟨rfl, rfl⟩ := hr
            subst h1 h2 h3
            refine ⟨rfl, ?_, ?_, ?_⟩ <;> intro x hx <;> simp at hx ⊢
      · -- plain chunk
        split at hr
        next e heq2 => exact Except.noConfusion hr
        next size s2 heq2 =>
          have h2 := readU32le_ok _ _ _ heq2
          simp only [Except.ok.injEq, Prod.mk.injEq] at hr
          obtain ⟨rfl, rfl⟩ := hr
          subst h1 h2
          refine ⟨rfl, ?_, ?_, ?_⟩ <;> intro x hx <;> simp at hx ⊢

theorem read_next_ok_cases (it : ListIter) (s : Stream) (c : ChunkType)
    (it' : ListIter) (s' : Stream) (h : it.read_next s = .ok (c, it', s')) :
    it'.list = it.list ∧ s'.data = s.data ∧
    ((∃ ch : ChunkHeader,
        c = .chunk ⟨ch, ⟨it.next_position + 8⟩⟩ ∧
        s'.pos = it.next_position + 8 ∧
        it'.next_position = it.next_position + 8 + (ch.size + padOf ch.size)) ∨
     (∃ lh : ListHeader,
        c = .list ⟨lh, ⟨it.next_position + 12⟩⟩ ∧
        s'.pos = it.next_position + 12 ∧
        it'.next_position = it.next_position + 12 + (lh.size + padOf lh.size) - fourccSize)) := by
  simp only [ListIter.read_next] at h
  split at h
  next e heq => exact Except.noConfusion h
  next hd s1 heq =>
    obtain ⟨hdata, hchunk, hlist, hriff⟩ := Header.read_ok _ _ _ heq
    split at h
    next lh =>
      have hpos : s1.pos = it.next_position + 12 := hlist lh rfl
      simp only [Except.ok.injEq, Prod.mk.injEq] at h
      obtain ⟨rfl, rfl, rfl⟩ := h
      refine ⟨rfl, hdata, Or.inr ⟨lh, ?_, ?_, ?_⟩⟩
      · rw [hpos]
      · exact hpos
      · simp only [RList.data_pad, RList.data_size, hpos]
    next ch =>
      have hpos : s1.pos = it.next_position + 8 := hchunk ch rfl
      simp only [Except.ok.injEq, Prod.mk.injEq] at h
      obtain ⟨rfl, rfl, rfl⟩ := h
      refine ⟨rfl, hdata, Or.inl ⟨ch, ?_, ?_, ?_⟩⟩
      · rw [hpos]
      · exact hpos
      · simp only [Chunk.data_pad, Chunk.data_size, hpos]
    next lh => exact Except.noConfusion h

/-- C10: for every 4-byte array b, Fourcc.new(b).bytes() = b, and two
Fourcc values are equal iff their underlying 4-byte arrays are equal
(byte values are u8, Fourcc values u32, stated as bounds). -/
theorem fourcc_new_bytes_inverse :
    (∀ b : Bytes4, b.b0 < 256 → b.b1 < 256 → b.b2 < 256 → b.b3 < 256 →
      (Fourcc.new b).bytes = b) ∧
    (∀ f g : Fourcc, f.val < 4294967296 → g.val < 4294967296 →
      (f = g ↔ f.bytes = g.bytes)) := by
  constructor
  · intro b h0 h1 h2 h3
    obtain ⟨b0, b1, b2, b3⟩ := b
    simp only [Fourcc.new, Fourcc.bytes, Bytes4.mk.injEq] at *
    refine ⟨?_, ?_, ?_, ?_⟩ <;> omega
  · intro f g hf hg
    constructor
    · intro h
      rw [h]
    · intro h
      obtain ⟨fv⟩ := f
      obtain ⟨gv⟩ := g
      have hf' : fv < 4294967296 := hf
      have hg' : gv < 4294967296 := hg
      simp only [Fourcc.bytes, Bytes4.mk.injEq] at h
      simp only [Fourcc.mk.injEq]
      omega

/-- Witness for C10 at the concrete byte array "RIFF" and the Fourcc
values for "RIFF" and "LIST". -/
theorem fourcc_new_bytes_inverse_witness :
    (Fourcc.new ⟨82, 73, 70, 70⟩).bytes = ⟨82, 73, 70, 70⟩ ∧
    (tagRIFF = tagLIST ↔ tagRIFF.bytes = tagLIST.bytes) :=
  ⟨fourcc_new_bytes_inverse.1 ⟨82, 73, 70, 70⟩ (by decide) (by decide) (by decide)
      (by decide),
   fourcc_new_bytes_inverse.2 tagRIFF tagLIST (by decide) (by decide)⟩

/-- C2 counterexample: a list node whose declared size field is 12 has
data_size() = 12, not 12 - 4 = 8 — the claim that a list node's
data_size() equals the declared size minus 4 fails on the code. -/
theorem data_size_list_cex :
    (⟨⟨12, ⟨0⟩⟩, ⟨0⟩⟩ : RList).data_size = 12 ∧
    (⟨⟨12, ⟨0⟩⟩, ⟨0⟩⟩ : RList).data_size ≠ 12 - 4 := by
  constructor
  · rfl
  · decide

/-- C2 (corrected): data_size() returns the header's declared size field
unchanged for chunk nodes and for list nodes alike; the 4-byte
list-type tag already consumed while reading a list header is instead
subtracted at the use site — when the iterator computes the following
sibling's offset for a list child it uses
data_start + data_size + data_pad - size_of::<Fourcc>(). -/
theorem data_size_of_nodes :
    (∀ c : Chunk, c.data_size = c.header.size) ∧
    (∀ l : RList, l.data_size = l.header.size) ∧
    (∀ (it : ListIter) (s : Stream) (l : RList) (it' : ListIter) (s' : Stream),
      it.read_next s = .ok (.list l, it', s') →
      it'.next_position + fourccSize =
        l.metadata.data_start + l.data_size + l.data_pad) := by
  refine ⟨fun c => rfl, fun l => rfl, ?_⟩
  intro it s l it' s' h
  obtain ⟨-, -, hcase⟩ := read_next_ok_cases it s (.list l) it' s' h
  rcases hcase with ⟨ch, hc, -, -⟩ | ⟨lh, hc, -, hn⟩
  · exact absurd hc (by simp)
  · simp only [ChunkType.list.injEq] at hc
    subst hc
    simp only [RList.data_pad, RList.data_size, hn, fourccSize]
    have := padOf_le_one lh.size
    omega

/-- Witness for C2 on a stream holding one LIST header of declared size
12: the cached next-sibling offset is 20 and 20 + 4 = 12 + 12 + 0. -/
theorem data_size_of_nodes_witness :
    (⟨⟨⟨100, ⟨0⟩⟩, ⟨0⟩⟩, 20⟩ : ListIter).next_position + fourccSize =
      (⟨⟨12, ⟨1633771873⟩⟩, ⟨12⟩⟩ : RList).metadata.data_start +
      (⟨⟨12, ⟨1633771873⟩⟩, ⟨12⟩⟩ : RList).data_size +
      (⟨⟨12, ⟨1633771873⟩⟩, ⟨12⟩⟩ : RList).data_pad :=
  data_size_of_nodes.2.2 ⟨⟨⟨100, ⟨0⟩⟩, ⟨0⟩⟩, 0⟩
    ⟨[76, 73, 83, 84, 12, 0, 0, 0, 97, 97, 97, 97], 0⟩
    ⟨⟨12, ⟨1633771873⟩⟩, ⟨12⟩⟩ ⟨⟨⟨100, ⟨0⟩⟩, ⟨0⟩⟩, 20⟩
    ⟨[76, 73, 83, 84, 12, 0, 0, 0, 97, 97, 97, 97], 12⟩ rfl

/-- C3 counterexample: with the stream cursor at position 4 instead of
the node's recorded data start 0, the typed read decodes a different
value than it would decode from the data start — the result does
depend on where the cursor was left, because read_data_struct performs
no seek. -/
theorem read_data_struct_seek_cex :
    read_data_struct readU32le ⟨0⟩ ⟨[1, 0, 0, 0, 2, 0, 0, 0], 4⟩ ≠
      readU32le (seekTo (⟨0⟩ : Metadata).data_start ⟨[1, 0, 0, 0, 2, 0, 0, 0], 4⟩) := by
  intro h
  simp only [read_data_struct, seekTo, readU32le, byteAt] at h
  simp at h

/-- C3 (corrected): read_data_struct decodes from the current stream
position without seeking; only when the cursor already sits at the
node's recorded data start (as it does immediately after the iterator
reads the node's header) does the result agree with decoding from the
data start; decode failures propagate unchanged. -/
theorem read_data_struct_current_pos :
    ∀ {α : Type} (dec : Stream → Except BinError (α × Stream)) (m : Metadata)
      (s : Stream),
      (s.pos = m.data_start →
        read_data_struct dec m s = dec (seekTo m.data_start s)) ∧
      (∀ e : BinError, dec s = .error e → read_data_struct dec m s = .error e) := by
  intro α dec m s
  constructor
  · intro h
    unfold read_data_struct seekTo
    rw [← h]
  · intro e he
    unfold read_data_struct
    exact he

/-- Witness for C3 with the cursor at the data start 0. -/
theorem read_data_struct_current_pos_witness :
    read_data_struct readU32le ⟨0⟩ ⟨[5, 0, 0, 0], 0⟩ =
      readU32le (seekTo (⟨0⟩ : Metadata).data_start ⟨[5, 0, 0, 0], 0⟩) :=
  (read_data_struct_current_pos readU32le ⟨0⟩ ⟨[5, 0, 0, 0], 0⟩).1 rfl

/-- C5 counterexample: reading a LIST child (declared size 12, so
data_size() = 12, data start 12) caches next-sibling offset 20, not
data_start + data_size() + pad = 24 — for list children the iterator
additionally subtracts the 4-byte list-type tag, so the cached offset
is not data_start + data_size() + pad as claimed. -/
theorem sibling_offset_cex :
    ListIter.read_next ⟨⟨⟨100, ⟨0⟩⟩, ⟨0⟩⟩, 0⟩
        ⟨[76, 73, 83, 84, 12, 0, 0, 0, 97, 97, 97, 97], 0⟩ =
      .ok (.list ⟨⟨12, ⟨1633771873⟩⟩, ⟨12⟩⟩, ⟨⟨⟨100, ⟨0⟩⟩, ⟨0⟩⟩, 20⟩,
           ⟨[76, 73, 83, 84, 12, 0, 0, 0, 97, 97, 97, 97], 12⟩) ∧
    (⟨⟨⟨100, ⟨0⟩⟩, ⟨0⟩⟩, 20⟩ : ListIter).next_position ≠
      (⟨⟨12, ⟨1633771873⟩⟩, ⟨12⟩⟩ : RList).metadata.data_start +
      (⟨⟨12, ⟨1633771873⟩⟩, ⟨12⟩⟩ : RList).data_size +
      (⟨⟨12, ⟨1633771873⟩⟩, ⟨12⟩⟩ : RList).data_pad := by
  exact ⟨rfl, by decide⟩

/-- C5 (corrected): the cached offset of the following sibling is
computed from the just-read header alone, without requiring the caller
to have consumed the payload; for a chunk child it equals
data_start + data_size() + data_pad (so a leaf of payload size 5
consumes 6 bytes, one of size 4 consumes exactly 4), while for a list
child the 4-byte already-consumed list-type tag is additionally
subtracted: data_start + data_size() + data_pad - size_of::<Fourcc>(). -/
theorem sibling_offset_from_header :
    ∀ (it : ListIter) (s : Stream) (c : ChunkType) (it' : ListIter) (s' : Stream),
      it.read_next s = .ok (c, it', s') →
      (∀ ch : Chunk, c = .chunk ch →
        it'.next_position = ch.metadata.data_start + ch.data_size + ch.data_pad) ∧
      (∀ l : RList, c = .list l →
        it'.next_position + fourccSize =
          l.metadata.data_start + l.data_size + l.data_pad) := by
  intro it s c it' s' h
  obtain ⟨-, -, hcase⟩ := read_next_ok_cases it s c it' s' h
  constructor
  · intro ch hc
    subst hc
    rcases hcase with ⟨chh, hch, -, hn⟩ | ⟨lh, hch, -, -⟩
    · simp only [ChunkType.chunk.injEq] at hch
      subst hch
      simp only [Chunk.data_pad, Chunk.data_size, hn]
      omega
    · exact absurd hch (by simp)
  · intro l hc
    subst hc
    rcases hcase with ⟨chh, hch, -, -⟩ | ⟨lh, hch, -, hn⟩
    · exact absurd hch (by simp)
    · simp only [ChunkType.list.injEq] at hch
      subst hch
      simp only [RList.data_pad, RList.data_size, hn, fourccSize]
      have := padOf_le_one lh.size
      omega

/-- Witness for C5 on a stream holding one chunk header of declared
size 5 at position 0: the next sibling is cached at 8 + 5 + 1 = 14. -/
theorem sibling_offset_from_header_witness :
    (⟨⟨⟨100, ⟨0⟩⟩, ⟨0⟩⟩, 14⟩ : ListIter).next_position =
      (⟨⟨⟨1633771873⟩, 5⟩, ⟨8⟩⟩ : Chunk).metadata.data_start +
      (⟨⟨⟨1633771873⟩, 5⟩, ⟨8⟩⟩ : Chunk).data_size +
      (⟨⟨⟨1633771873⟩, 5⟩, ⟨8⟩⟩ : Chunk).data_pad :=
  (sibling_offset_from_header ⟨⟨⟨100, ⟨0⟩⟩, ⟨0⟩⟩, 0⟩
      ⟨[97, 97, 97, 97, 5, 0, 0, 0, 9, 9, 9, 9, 9, 9], 0⟩
      (.chunk ⟨⟨⟨1633771873⟩, 5⟩, ⟨8⟩⟩) ⟨⟨⟨100, ⟨0⟩⟩, ⟨0⟩⟩, 14⟩
      ⟨[97, 97, 97, 97, 5, 0, 0, 0, 9, 9, 9, 9, 9, 9], 8⟩ rfl).1
    ⟨⟨⟨1633771873⟩, 5⟩, ⟨8⟩⟩ rfl

/-- C6 counterexample: a list with data_start 12 and declared size 12
(end bound 24) yields a child chunk whose declared size 65535 places
the child's computed end at 65556, far beyond the bound — the
iterator checks only the header-read position, never the child's
computed end. -/
theorem list_iter_containment_cex :
    ListIter.next ⟨⟨⟨12, ⟨0⟩⟩, ⟨12⟩⟩, 12⟩
        ⟨[0, 0, 0, 0, 0, 0, 0, 0, 0, 0, 0, 0, 98, 98, 98, 98, 255, 255, 0, 0], 0⟩ =
      some (.ok (.chunk ⟨⟨⟨1650614882⟩, 65535⟩, ⟨20⟩⟩, ⟨⟨⟨12, ⟨0⟩⟩, ⟨12⟩⟩, 65556⟩,
        ⟨[0, 0, 0, 0, 0, 0, 0, 0, 0, 0, 0, 0, 98, 98, 98, 98, 255, 255, 0, 0], 20⟩)) ∧
    (⟨⟨⟨12, ⟨0⟩⟩, ⟨12⟩⟩, 12⟩ : ListIter).list.metadata.data_start +
        (⟨⟨⟨12, ⟨0⟩⟩, ⟨12⟩⟩, 12⟩ : ListIter).list.data_size <
      (⟨⟨⟨12, ⟨0⟩⟩, ⟨12⟩⟩, 65556⟩ : ListIter).next_position := by
  exact ⟨rfl, by decide⟩

/-- C6 (corrected): no child header is ever read at or beyond
list.data_start + list.data_size() — iteration stops (yields None) as
soon as the cached position reaches the list's declared end bound
data_start + (size + data_pad) - size_of::<Fourcc>(), so children
whose sizes sum exactly to that bound are all yielded and nothing
more; a yielded child's computed end, however, is not checked and may
fall beyond the bound. -/
theorem list_iter_containment :
    ∀ (it : ListIter) (s : Stream),
      (it.next s ≠ none →
        it.next_position < it.list.metadata.data_start + it.list.data_size) ∧
      (it.list.metadata.data_start + (it.list.header.size + it.list.data_pad)
          - fourccSize ≤ it.next_position →
        it.next s = none) := by
  intro it s
  constructor
  · intro hne
    unfold ListIter.next at hne
    split at hne
    · exact absurd rfl hne
    · next hlt =>
      simp only [not_le] at hlt
      simp only [RList.data_size]
      have hp := padOf_le_one it.list.data_size
      simp only [RList.data_pad, RList.data_size, fourccSize] at hlt hp
      omega
  · intro hge
    unfold ListIter.next
    exact if_pos hge

/-- Witness for C6: an iterator whose cached position sits exactly at
the list's declared end bound (12 + (12 + 0) - 4 = 20) yields None. -/
theorem list_iter_containment_witness :
    ListIter.next ⟨⟨⟨12, ⟨0⟩⟩, ⟨12⟩⟩, 20⟩
      ⟨[0, 0, 0, 0, 0, 0, 0, 0, 0, 0, 0, 0, 98, 98, 98, 98, 255, 255, 0, 0], 0⟩ = none :=
  (list_iter_containment ⟨⟨⟨12, ⟨0⟩⟩, ⟨12⟩⟩, 20⟩
      ⟨[0, 0, 0, 0, 0, 0, 0, 0, 0, 0, 0, 0, 98, 98, 98, 98, 255, 255, 0, 0], 0⟩).2
    (by decide)

/-- C9 (confirmed): every successful advance of a list iterator sets
the cached next-sibling position strictly greater than the position
from which the current child's header was read (the cached position it
seeks to before reading), for chunk children and nested list children
alike — sibling iteration is strictly forward in stream position. -/
theorem iteration_strictly_forward :
    ∀ (it : ListIter) (s : Stream) (c : ChunkType) (it' : ListIter) (s' : Stream),
      it.read_next s = .ok (c, it', s') →
      it.next_position < it'.next_position := by
  intro it s c it' s' h
  obtain ⟨-, -, hcase⟩ := read_next_ok_cases it s c it' s' h
  rcases hcase with ⟨ch, -, -, hn⟩ | ⟨lh, -, -, hn⟩
  · omega
  · simp only [fourccSize] at hn
    omega

/-- Witness for C9 on a stream holding one zero-size chunk header at
position 0: the cached position advances from 0 to 8. -/
theorem iteration_strictly_forward_witness :
    (⟨⟨⟨100, ⟨0⟩⟩, ⟨0⟩⟩, 0⟩ : ListIter).next_position <
      (⟨⟨⟨100, ⟨0⟩⟩, ⟨0⟩⟩, 8⟩ : ListIter).next_position :=
  iteration_strictly_forward ⟨⟨⟨100, ⟨0⟩⟩, ⟨0⟩⟩, 0⟩ ⟨[97, 97, 97, 97, 0, 0, 0, 0], 0⟩
    (.chunk ⟨⟨⟨1633771873⟩, 0⟩, ⟨8⟩⟩) ⟨⟨⟨100, ⟨0⟩⟩, ⟨0⟩⟩, 8⟩
    ⟨[97, 97, 97, 97, 0, 0, 0, 0], 8⟩ rfl

theorem readBytes_ok (n : Nat) (s : Stream) (b : List Nat) (s' : Stream)
    (h : readBytes n s = .ok (b, s')) :
    b.length = n ∧ s' = ⟨s.data, s.pos + n⟩ := by
  unfold readBytes at h
  split at h
  next hle =>
    simp only [Except.ok.injEq, Prod.mk.injEq] at h
    obtain ⟨rfl, rfl⟩ := h
    refine ⟨?_, rfl⟩
    rw [List.length_take, List.length_drop]
    omega
  next => exact Except.noConfusion h

theorem read_data_ok (data_size buffer_len : Nat) (s : Stream) (bytes : List Nat)
    (s' : Stream) (h : read_data data_size buffer_len s = .ok (bytes, s')) :
    buffer_len = data_size ∧ bytes.length = data_size ∧
    s'.data = s.data ∧ s'.pos = s.pos + data_size + padOf data_size := by
  unfold read_data at h
  split at h
  next => exact Except.noConfusion h
  next hne =>
    have hbl : buffer_len = data_size := by
      by_contra hc
      exact hne hc
    refine ⟨hbl, ?_⟩
    split at h
    next e heq => exact Except.noConfusion h
    next b1 s1 heq =>
      obtain ⟨hlen, rfl⟩ := readBytes_ok _ _ _ _ heq
      by_cases hpad : padOf data_size = 1
      · rw [if_pos hpad] at h
        split at h
        next e heq2 => exact Except.noConfusion h
        next b2 s2 heq2 =>
          obtain ⟨-, rfl⟩ := readBytes_ok _ _ _ _ heq2
          simp only [Except.ok.injEq, Prod.mk.injEq] at h
          obtain ⟨rfl, rfl⟩ := h
          refine ⟨hlen, rfl, ?_⟩
          simp only [hpad]
      · rw [if_neg hpad] at h
        simp only [Except.ok.injEq, Prod.mk.injEq] at h
        obtain ⟨rfl, rfl⟩ := h
        have hp1 := padOf_le_one data_size
        refine ⟨hlen, rfl, ?_⟩
        show s.pos + data_size = s.pos + data_size + padOf data_size
        omega

/-- C8 (confirmed): read_data fails with a caller error (AssertFail at
the current stream position) whenever the buffer length differs from
data_size(); on success it fills the buffer with exactly data_size()
bytes and additionally consumes the single trailing pad byte when
data_size() is odd; read_data_vec allocates a buffer of exactly
data_size() bytes first and on success returns it filled. -/
theorem read_data_exact_buffer :
    ∀ (data_size buffer_len : Nat) (s : Stream),
      (buffer_len ≠ data_size →
        read_data data_size buffer_len s =
          .error (.assertFail s.pos "read buffer too small")) ∧
      (∀ (bytes : List Nat) (s' : Stream),
        read_data data_size buffer_len s = .ok (bytes, s') →
        buffer_len = data_size ∧ bytes.length = data_size ∧
        s'.data = s.data ∧ s'.pos = s.pos + data_size + padOf data_size) ∧
      (∀ (bytes : List Nat) (s' : Stream),
        read_data_vec data_size s = .ok (bytes, s') →
        bytes.length = data_size ∧ s'.pos = s.pos + data_size + padOf data_size) := by
  intro data_size buffer_len s
  refine ⟨?_, ?_, ?_⟩
  · intro hne
    unfold read_data
    exact if_pos hne
  · intro bytes s' h
    exact read_data_ok data_size buffer_len s bytes s' h
  · intro bytes s' h
    have := read_data_ok data_size data_size s bytes s' h
    exact ⟨this.2.1, this.2.2.2⟩

/-- Witness for C8: a 4-byte buffer for a 5-byte payload is rejected,
and read_data_vec of a 5-byte payload consumes 6 bytes (5 + 1 pad). -/
theorem read_data_exact_buffer_witness :
    read_data 5 4 ⟨[1, 2, 3, 4, 5, 6, 7, 8], 0⟩ =
      .error (.assertFail 0 "read buffer too small") ∧
    ([1, 2, 3, 4, 5] : List Nat).length = 5 ∧ (6 : Nat) = 0 + 5 + padOf 5 :=
  ⟨(read_data_exact_buffer 5 4 ⟨[1, 2, 3, 4, 5, 6, 7, 8], 0⟩).1 (by decide),
   (read_data_exact_buffer 5 0 ⟨[1, 2, 3, 4, 5, 6, 7, 8], 0⟩).2.2 [1, 2, 3, 4, 5]
     ⟨[1, 2, 3, 4, 5, 6, 7, 8], 6⟩ rfl⟩

theorem foldl_max_step_some {α : Type} (key : α → Nat) (l : List α) (a : α) :
    ∃ b, l.foldl (max_by_key_step key) (some a) = some b := by
  induction l generalizing a with
  | nil => exact ⟨a, rfl⟩
  | cons x xs ih =>
    simp only [List.foldl_cons, max_by_key_step]
    split
    · exact ih a
    · exact ih x

theorem max_by_key_none_iff {α : Type} (key : α → Nat) (l : List α) :
    max_by_key key l = none ↔ l = [] := by
  cases l with
  | nil => simp [max_by_key]
  | cons x xs =>
    simp only [max_by_key, List.foldl_cons]
    obtain ⟨b, hb⟩ := foldl_max_step_some key xs x
    show xs.foldl (max_by_key_step key) (max_by_key_step key none x) = none ↔ _
    simp only [max_by_key_step, hb]
    constructor
    · intro h
      exact Option.noConfusion h
    · intro h
      exact List.noConfusion h

theorem max_by_key_last_max {α : Type} (key : α → Nat) (l : List α) (b : α)
    (h : max_by_key key l = some b) :
    ∃ l1 l2, l = l1 ++ b :: l2 ∧ (∀ x ∈ l1, key x ≤ key b) ∧
      (∀ x ∈ l2, key x < key b) := by
  induction l using List.reverseRecOn generalizing b with
  | nil => exact absurd h (by simp [max_by_key])
  | append_singleton l x ih =>
    rw [max_by_key, List.foldl_append, List.foldl_cons, List.foldl_nil] at h
    cases hm : l.foldl (max_by_key_step key) none with
    | none =>
      have hl : l = [] := (max_by_key_none_iff key l).mp hm
      rw [hm] at h
      simp only [max_by_key_step] at h
      obtain rfl := Option.some.inj h
      subst hl
      exact ⟨[], [], rfl, by simp, by simp⟩
    | some a =>
      rw [hm] at h
      simp only [max_by_key_step] at h
      by_cases hk : key a > key x
      · rw [if_pos hk] at h
        obtain rfl := Option.some.inj h
        obtain ⟨l1, l2, hsplit, h1, h2⟩ := ih a hm
        refine ⟨l1, l2 ++ [x], ?_, h1, ?_⟩
        · rw [hsplit]
          simp
        · intro y hy
          rcases List.mem_append.mp hy with hy2 | hyx
          · exact h2 y hy2
          · rw [List.mem_singleton.mp hyx]
            exact hk
      · rw [if_neg hk] at h
        obtain rfl := Option.some.inj h
        obtain ⟨l1, l2, hsplit, h1, h2⟩ := ih a hm
        refine ⟨l, [], rfl, ?_, by simp⟩
        intro y hy
        have hax : key a ≤ key x := Nat.le_of_not_lt hk
        rw [hsplit] at hy
        rcases List.mem_append.mp hy with hy1 | hy2
        · exact le_trans (h1 y hy1) hax
        · rcases List.mem_cons.mp hy2 with rfl | hy3
          · exact hax
          · exact le_trans (le_of_lt (h2 y hy3)) hax

/-- C1 counterexample: two video streams share the highest priority 5;
find_best_stream returns the second-encountered one, not the first —
Rust's max_by_key keeps the later element on ties. -/
theorem find_best_stream_tie_cex :
    find_best_stream toVideo VideoStream.stream_header
        [.video ⟨⟨1⟩, ⟨⟨0⟩, ⟨0⟩, 0, 5, 0, 0, 0, 0, 0, 0, 0, 0, 0, ⟨0, 0, 0, 0⟩⟩,
           ⟨0, 0, 0, 0, 0, 0, 0, 0, 0, 0, 0⟩⟩,
         .video ⟨⟨2⟩, ⟨⟨0⟩, ⟨0⟩, 0, 5, 0, 0, 0, 0, 0, 0, 0, 0, 0, ⟨0, 0, 0, 0⟩⟩,
           ⟨0, 0, 0, 0, 0, 0, 0, 0, 0, 0, 0⟩⟩] =
      some ⟨⟨2⟩, ⟨⟨0⟩, ⟨0⟩, 0, 5, 0, 0, 0, 0, 0, 0, 0, 0, 0, ⟨0, 0, 0, 0⟩⟩,
        ⟨0, 0, 0, 0, 0, 0, 0, 0, 0, 0, 0⟩⟩ ∧
    (⟨⟨2⟩, ⟨⟨0⟩, ⟨0⟩, 0, 5, 0, 0, 0, 0, 0, 0, 0, 0, 0, ⟨0, 0, 0, 0⟩⟩,
        ⟨0, 0, 0, 0, 0, 0, 0, 0, 0, 0, 0⟩⟩ : VideoStream) ≠
      ⟨⟨1⟩, ⟨⟨0⟩, ⟨0⟩, 0, 5, 0, 0, 0, 0, 0, 0, 0, 0, 0, ⟨0, 0, 0, 0⟩⟩,
        ⟨0, 0, 0, 0, 0, 0, 0, 0, 0, 0, 0⟩⟩ := by
  exact ⟨rfl, by decide⟩

/-- C1 (corrected): find_best_stream filters the stream table to the
requested kind and returns an entry of numerically highest priority;
among several entries sharing the highest priority it returns the
last-encountered one (every earlier entry has priority at most the
winner's, every later entry strictly less); it returns none exactly
when no stream of the kind is present. -/
theorem find_best_stream_last_max :
    ∀ {S : Type} (tryFrom : StreamInfo → Option S)
      (stream_header : S → AviStreamHeader) (si : List StreamInfo),
      (find_best_stream tryFrom stream_header si = none ↔
        si.filterMap tryFrom = []) ∧
      (∀ b, find_best_stream tryFrom stream_header si = some b →
        ∃ l1 l2, si.filterMap tryFrom = l1 ++ b :: l2 ∧
          (∀ x ∈ l1, (stream_header x).priority ≤ (stream_header b).priority) ∧
          (∀ x ∈ l2, (stream_header x).priority < (stream_header b).priority)) := by
  intro S tryFrom hdr si
  constructor
  · exact max_by_key_none_iff _ _
  · intro b h
    exact max_by_key_last_max _ _ b h

/-- Witness for C1: an empty stream table yields none. -/
theorem find_best_stream_last_max_witness :
    find_best_stream toVideo VideoStream.stream_header [] = none :=
  (find_best_stream_last_max toVideo VideoStream.stream_header []).1.mpr rfl

/-- C4 counterexample: an error raised while reading a child's header
does not surface through stream_chunks — the filter silently drops it,
yielding an empty sequence instead of the error. -/
theorem stream_chunks_error_dropped_cex :
    stream_chunks ⟨0⟩ [.error (.ioError .other)] = [] := rfl

/-- C4 (corrected): stream_chunks yields exactly the immediate children
of movi that are chunks whose header id equals the given stream id, in
their original order (a sublist of the children sequence), never
descending into nested lists — but a result that is not such a chunk,
errors raised while reading a child's header included, is silently
filtered out rather than surfaced to the caller. -/
theorem stream_chunks_filters :
    ∀ (stream_id : Fourcc) (children : List (Except BinError AviNode)),
      (stream_chunks stream_id children).Sublist children ∧
      (∀ r, r ∈ stream_chunks stream_id children ↔
        (r ∈ children ∧ ∃ p, r = .ok (.chunk stream_id p))) := by
  intro sid children
  constructor
  · exact List.filter_sublist children
  · intro r
    rw [stream_chunks, List.mem_filter]
    have hp : (match r with
        | .ok (.chunk cid _) => cid == sid
        | _ => false) = true ↔ ∃ p, r = .ok (.chunk sid p) := by
      cases r with
      | error e => simp
      | ok n =>
        cases n with
        | chunk cid p =>
          simp only [beq_iff_eq, Except.ok.injEq]
          constructor
          · intro h
            subst h
            exact ⟨p, rfl⟩
          · intro ⟨p2, hp2⟩
            cases hp2
            rfl
        | list lid ch => simp
    rw [hp]

/-- Witness for C4: in a movi holding chunks tagged "00dc", "01wb",
"00dc", the first "00dc" chunk is yielded by stream_chunks "00dc". -/
theorem stream_chunks_filters_witness :
    Except.ok (AviNode.chunk ⟨1667510320⟩ (.raw [1])) ∈
      stream_chunks ⟨1667510320⟩
        [.ok (.chunk ⟨1667510320⟩ (.raw [1])),
         .ok (.chunk ⟨1651978544⟩ (.raw [2])),
         .ok (.chunk ⟨1667510320⟩ (.raw [3]))] :=
  ((stream_chunks_filters ⟨1667510320⟩
      [.ok (.chunk ⟨1667510320⟩ (.raw [1])),
       .ok (.chunk ⟨1651978544⟩ (.raw [2])),
       .ok (.chunk ⟨1667510320⟩ (.raw [3]))]).2
    (.ok (.chunk ⟨1667510320⟩ (.raw [1])))).mpr
    ⟨by simp, ⟨.raw [1], rfl⟩⟩

theorem readOneStream_group (idx : Nat) (g : StrlGroup)
    (rest : List (Except BinError AviNode)) (hw : g.wfb = true) :
    readOneStream idx (.ok g.node :: rest) = .ok (g.entry idx, rest) := by
  unfold StrlGroup.wfb at hw
  by_cases hv : g.header.fcc_type = tagVIDS
  · rw [if_pos hv] at hw
    cases hfmt : g.fmt with
    | bitmapInfo b =>
      simp [readOneStream, nextItem, StrlGroup.node, readStreamHeaderP,
        readBitmapInfoP, StrlGroup.entry, hv, hfmt]
    | mainHeader h => rw [hfmt] at hw; exact Bool.noConfusion hw
    | streamHeader h => rw [hfmt] at hw; exact Bool.noConfusion hw
    | waveFormat w => rw [hfmt] at hw; exact Bool.noConfusion hw
    | raw bs => rw [hfmt] at hw; exact Bool.noConfusion hw
  · rw [if_neg hv] at hw
    by_cases ha : g.header.fcc_type = tagAUDS
    · rw [if_pos ha] at hw
      cases hfmt : g.fmt with
      | waveFormat w =>
        have hne : tagAUDS ≠ tagVIDS := by decide
        simp [readOneStream, nextItem, StrlGroup.node, readStreamHeaderP,
          readWaveFormatP, StrlGroup.entry, hv, ha, hfmt, hne]
      | mainHeader h => rw [hfmt] at hw; exact Bool.noConfusion hw
      | streamHeader h => rw [hfmt] at hw; exact Bool.noConfusion hw
      | bitmapInfo b => rw [hfmt] at hw; exact Bool.noConfusion hw
      | raw bs => rw [hfmt] at hw; exact Bool.noConfusion hw
    · simp [readOneStream, nextItem, StrlGroup.node, readStreamHeaderP,
        StrlGroup.entry, hv, ha]

theorem readStreams_short :
    ∀ (gs : List StrlGroup) (idx n : Nat), gs.all StrlGroup.wfb = true →
      gs.length < n → readStreams idx n (okNodes gs) = .error eof_error := by
  intro gs
  induction gs with
  | nil =>
    intro idx n hw hlt
    cases n with
    | zero => omega
    | succ m => rfl
  | cons g gs ih =>
    intro idx n hw hlt
    rw [List.all_cons, Bool.and_eq_true] at hw
    obtain ⟨hwg, hwgs⟩ := hw
    cases n with
    | zero => simp at hlt
    | succ m =>
      have hlen : gs.length < m := by
        simp only [List.length_cons] at hlt
        omega
      have h1 := readOneStream_group idx g (okNodes gs) hwg
      have h2 := ih (idx + 1) m hwgs hlen
      show readStreams idx (m + 1) (Except.ok g.node :: okNodes gs) =
        Except.error eof_error
      simp only [readStreams, h1, h2]

theorem readStreams_exact :
    ∀ (gs : List StrlGroup) (idx : Nat), gs.all StrlGroup.wfb = true →
      readStreams idx gs.length (okNodes gs) = .ok (groupEntries idx gs, []) := by
  intro gs
  induction gs with
  | nil =>
    intro idx hw
    rfl
  | cons g gs ih =>
    intro idx hw
    rw [List.all_cons, Bool.and_eq_true] at hw
    obtain ⟨hwg, hwgs⟩ := hw
    have h1 := readOneStream_group idx g (okNodes gs) hwg
    have h2 := ih (idx + 1) hwgs
    show readStreams idx (gs.length + 1) (Except.ok g.node :: okNodes gs) =
      Except.ok (groupEntries idx (g :: gs), [])
    simp only [readStreams, h1, h2, groupEntries]

theorem groupEntries_other_nil :
    ∀ (gs : List StrlGroup) (idx : Nat),
      (∀ g ∈ gs, g.header.fcc_type ≠ tagVIDS ∧ g.header.fcc_type ≠ tagAUDS) →
      groupEntries idx gs = [] := by
  intro gs
  induction gs with
  | nil => intro idx h; rfl
  | cons g gs ih =>
    intro idx h
    obtain ⟨hv, ha⟩ := h g (List.mem_cons_self g gs)
    show (g.entry idx).toList ++ groupEntries (idx + 1) gs = []
    rw [StrlGroup.entry, if_neg hv, if_neg ha]
    rw [ih (idx + 1) fun x hx => h x (List.mem_cons_of_mem g hx)]
    rfl

/-- C7 (confirmed): when the main header declares more streams than
there are strl groups in hdrl, AviParser construction fails with the
unexpected-end-of-data error (never returning a partial table); when
the declared count matches, construction succeeds and the table holds
exactly the entries of the vids/auds groups — a group whose declared
type is neither vids nor auds is excluded from the table without
failing the parse (in particular, if no group is vids or auds the
parse still succeeds with an empty table). -/
theorem aviNew_stream_table :
    ∀ (mh : AviMainHeader) (gs : List StrlGroup)
      (movich tail : List (Except BinError AviNode)),
      gs.all StrlGroup.wfb = true →
      (gs.length < mh.streams →
        aviNew tagAVI (.ok (.list tagHDRL
            (.ok (.chunk tagAVIH (.mainHeader mh)) :: okNodes gs)) :: tail) =
          .error eof_error) ∧
      (mh.streams = gs.length →
        aviNew tagAVI [.ok (.list tagHDRL
            (.ok (.chunk tagAVIH (.mainHeader mh)) :: okNodes gs)),
          .ok (.list tagMOVI movich)] =
          .ok ⟨mh, groupEntries 0 gs, .list tagMOVI movich⟩) ∧
      ((∀ g ∈ gs, g.header.fcc_type ≠ tagVIDS ∧ g.header.fcc_type ≠ tagAUDS) →
        mh.streams = gs.length →
        aviNew tagAVI [.ok (.list tagHDRL
            (.ok (.chunk tagAVIH (.mainHeader mh)) :: okNodes gs)),
          .ok (.list tagMOVI movich)] =
          .ok ⟨mh, [], .list tagMOVI movich⟩) := by
  intro mh gs movich tail hw
  refine ⟨?_, ?_, ?_⟩
  · intro hlt
    have hs := readStreams_short gs 0 mh.streams hw hlt
    simp [aviNew, nextItem, readMainHeaderP, hs]
  · intro hstreams
    have hs := readStreams_exact gs 0 hw
    simp [aviNew, nextItem, readMainHeaderP, findMovi, hstreams, hs]
  · intro hother hstreams
    have hs := readStreams_exact gs 0 hw
    have hg := groupEntries_other_nil gs 0 hother
    simp [aviNew, nextItem, readMainHeaderP, findMovi, hstreams, hs, hg]

/-- Witness for C7: a header declaring 3 streams over 2 strl groups
(one vids, one of another type) fails with unexpected-end-of-data, and
the same groups under a declared count of 2 parse successfully with a
one-entry table — the non-vids/auds group is excluded. -/
theorem aviNew_stream_table_witness :
    aviNew tagAVI [.ok (.list tagHDRL
        [.ok (.chunk tagAVIH (.mainHeader ⟨0, 0, 0, 0, 0, 0, 3, 0, 0, 0, [0, 0, 0, 0]⟩)),
         .ok (StrlGroup.node ⟨⟨tagVIDS, ⟨0⟩, 0, 0, 0, 0, 0, 0, 0, 0, 0, 0, 0, ⟨0, 0, 0, 0⟩⟩,
           .bitmapInfo ⟨0, 0, 0, 0, 0, 0, 0, 0, 0, 0, 0⟩⟩),
         .ok (StrlGroup.node ⟨⟨⟨7⟩, ⟨0⟩, 0, 0, 0, 0, 0, 0, 0, 0, 0, 0, 0, ⟨0, 0, 0, 0⟩⟩,
           .raw []⟩)])] =
      .error eof_error ∧
    aviNew tagAVI [.ok (.list tagHDRL
        [.ok (.chunk tagAVIH (.mainHeader ⟨0, 0, 0, 0, 0, 0, 2, 0, 0, 0, [0, 0, 0, 0]⟩)),
         .ok (StrlGroup.node ⟨⟨tagVIDS, ⟨0⟩, 0, 0, 0, 0, 0, 0, 0, 0, 0, 0, 0, ⟨0, 0, 0, 0⟩⟩,
           .bitmapInfo ⟨0, 0, 0, 0, 0, 0, 0, 0, 0, 0, 0⟩⟩),
         .ok (StrlGroup.node ⟨⟨⟨7⟩, ⟨0⟩, 0, 0, 0, 0, 0, 0, 0, 0, 0, 0, 0, ⟨0, 0, 0, 0⟩⟩,
           .raw []⟩)]),
      .ok (.list tagMOVI [])] =
      .ok ⟨⟨0, 0, 0, 0, 0, 0, 2, 0, 0, 0, [0, 0, 0, 0]⟩,
        [.video ⟨⟨1667510320⟩, ⟨tagVIDS, ⟨0⟩, 0, 0, 0, 0, 0, 0, 0, 0, 0, 0, 0, ⟨0, 0, 0, 0⟩⟩,
          ⟨0, 0, 0, 0, 0, 0, 0, 0, 0, 0, 0⟩⟩],
        .list tagMOVI []⟩ :=
  ⟨(aviNew_stream_table ⟨0, 0, 0, 0, 0, 0, 3, 0, 0, 0, [0, 0, 0, 0]⟩
      [⟨⟨tagVIDS, ⟨0⟩, 0, 0, 0, 0, 0, 0, 0, 0, 0, 0, 0, ⟨0, 0, 0, 0⟩⟩,
         .bitmapInfo ⟨0, 0, 0, 0, 0, 0, 0, 0, 0, 0, 0⟩⟩,
       ⟨⟨⟨7⟩, ⟨0⟩, 0, 0, 0, 0, 0, 0, 0, 0, 0, 0, 0, ⟨0, 0, 0, 0⟩⟩, .raw []⟩]
      [] [] rfl).1 (by decide),
   (aviNew_stream_table ⟨0, 0, 0, 0, 0, 0, 2, 0, 0, 0, [0, 0, 0, 0]⟩
      [⟨⟨tagVIDS, ⟨0⟩, 0, 0, 0, 0, 0, 0, 0, 0, 0, 0, 0, ⟨0, 0, 0, 0⟩⟩,
         .bitmapInfo ⟨0, 0, 0, 0, 0, 0, 0, 0, 0, 0, 0⟩⟩,
       ⟨⟨⟨7⟩, ⟨0⟩, 0, 0, 0, 0, 0, 0, 0, 0, 0, 0, 0, ⟨0, 0, 0, 0⟩⟩, .raw []⟩]
      [] [] rfl).2.1 rfl⟩

end Riffparse
